import Mathlib

/-!
Verification development for the `voice_input` repository.

This file gives a shallow embedding, in Lean, of the parts of the
repository that the specification's testable properties talk about:

* the binary frame codec of `volcengine_asr.py` (`_build_header`,
  `_build_request`, `_build_audio_frame`, `_parse_response`);
* the bounded audio send-buffer of `VolcengineStreamingASR.feed_audio`;
* the sequence numbering of the session's transmitted frames
  (`VolcengineStreamingASR._session` / `_send_audio_loop`);
* the blocking structure of `VolcengineStreamingASR.stop`;
* the recorder state machine of `audio_recorder.py` (`start`, `stop`,
  `_audio_callback`, `_trigger_auto_stop`).

Python byte strings are modelled as `List Nat` (one `Nat` per byte).
Machine integers are modelled as `Int`/`Nat` with explicit range checks
where the source's `struct.pack` would raise.  Fallible code returns
`Option`/`Except`.  The library calls `gzip.compress`/`gzip.decompress`
and `json.dumps`/`json.loads` have no source in this repository; they
are modelled by executable stand-ins that are faithful to the library
contract the source relies on: compression is invertible and
decompression/parsing can fail on bytes that are not in the image of
the encoder.  Wall-clock instants are modelled as integers (seconds);
the source only ever compares differences of instants with constant
thresholds, so the integer model captures the comparison logic.
-/

/-! ## Protocol constants (volcengine_asr.py, lines 19-41) -/

def PROTOCOL_VERSION : Nat := 1

def HEADER_SIZE : Nat := 1

def CLIENT_FULL_REQUEST : Nat := 1

def CLIENT_AUDIO_ONLY : Nat := 2

def SERVER_FULL_RESPONSE : Nat := 9

def SERVER_ACK : Nat := 11

def SERVER_ERROR : Nat := 15

def MSG_NO_SEQUENCE : Nat := 0

def MSG_POS_SEQUENCE : Nat := 1

def MSG_NEG_SEQUENCE : Nat := 2

def MSG_NEG_WITH_SEQUENCE : Nat := 3

def MSG_JSON : Nat := 1

def MSG_NO_COMPRESSION : Nat := 0

def MSG_GZIP : Nat := 1

/-! ## struct.pack / struct.unpack

`struct.pack(">i", n)` and `struct.pack(">I", n)` produce 4 big-endian
bytes and raise `struct.error` when the argument is out of range;
`struct.unpack` raises when the buffer does not hold exactly 4 bytes.
Both are modelled with `Option`. -/

/-- `struct.pack(">I", n)`: 4 big-endian bytes, `none` when `n` is not a u32. -/
def pack_u32 (n : Nat) : Option (List Nat) :=
  if n < 4294967296 then
    some [n / 16777216 % 256, n / 65536 % 256, n / 256 % 256, n % 256]
  else none

/-- `struct.pack(">i", n)`: 4 big-endian two's-complement bytes, `none` when `n` is not an i32. -/
def pack_i32 (n : Int) : Option (List Nat) :=
  if -2147483648 ≤ n ∧ n < 2147483648 then
    pack_u32 ((n % 4294967296).toNat)
  else none

/-- `struct.unpack(">I", bs)[0]`: `none` unless `bs` is exactly 4 bytes. -/
def unpack_u32 (bs : List Nat) : Option Nat :=
  match bs with
  | [a, b, c, d] => some (a * 16777216 + b * 65536 + c * 256 + d)
  | _ => none

/-- `struct.unpack(">i", bs)[0]`: signed reading of the same 4 bytes. -/
def unpack_i32 (bs : List Nat) : Option Int :=
  match unpack_u32 bs with
  | none => none
  | some u => some (if u < 2147483648 then (u : Int) else (u : Int) - 4294967296)

/-! ## gzip (library model)

Modelled from the library contract: `gzip.compress` prefixes its gzip
framing around the payload and `gzip.decompress` inverts it, raising on
bytes that are not a complete gzip stream.  The model keeps the real
magic bytes `0x1f 0x8b` and records the payload length so that both
truncated streams and trailing garbage fail to decompress, exactly the
failure modes the source can hit. -/

def gzip_compress (bs : List Nat) : List Nat :=
  31 :: 139 :: bs.length :: bs

def gzip_decompress (bs : List Nat) : Option (List Nat) :=
  match bs with
  | 31 :: 139 :: n :: rest => if rest.length = n then some rest else none
  | _ => none

/-! ## JSON (library model)

Modelled from the library contract: `json.dumps` serializes a
JSON-like value to bytes and `json.loads` inverts it, raising on bytes
that are not a serialized value or that have trailing garbage.  Python
strings are modelled as byte lists; numbers as integers. -/

inductive Json where
  | null : Json
  | bool (b : Bool) : Json
  | num (n : Int) : Json
  | str (s : List Nat) : Json
  | arr (items : List Json) : Json
  | obj (fields : List (List Nat × Json)) : Json

mutual

def json_dumps : Json → List Nat
  | .null => [0]
  | .bool b => [1, cond b 1 0]
  | .num n => [2, cond (n < 0) 1 0, n.natAbs]
  | .str s => 3 :: s.length :: s
  | .arr items => 4 :: items.length :: dumps_list items
  | .obj fields => 5 :: fields.length :: dumps_fields fields

def dumps_list : List Json → List Nat
  | [] => []
  | j :: rest => json_dumps j ++ dumps_list rest

def dumps_fields : List (List Nat × Json) → List Nat
  | [] => []
  | (k, v) :: rest => (k.length :: k) ++ json_dumps v ++ dumps_fields rest

end

/-- Parser modes: one value, `n` array items, or `n` object fields. -/
inductive PMode where
  | one : PMode
  | items (n : Nat) : PMode
  | fields (n : Nat) : PMode

/-- Parser results, matching the three modes. -/
inductive PRes where
  | one (j : Json) : PRes
  | items (l : List Json) : PRes
  | fields (l : List (List Nat × Json)) : PRes

/-- Fuel-indexed recursive-descent parser for the `json_dumps` encoding. -/
def parseA : Nat → PMode → List Nat → Option (PRes × List Nat)
  | 0, _, _ => none
  | fuel + 1, .one, bytes =>
    match bytes with
    | 0 :: rest => some (.one .null, rest)
    | 1 :: b :: rest => some (.one (.bool (b == 1)), rest)
    | 2 :: s :: m :: rest => some (.one (.num (if s == 1 then -(m : Int) else (m : Int))), rest)
    | 3 :: n :: rest =>
      if n ≤ rest.length then some (.one (.str (rest.take n)), rest.drop n) else none
    | 4 :: n :: rest =>
      match parseA fuel (.items n) rest with
      | some (.items l, r) => some (.one (.arr l), r)
      | _ => none
    | 5 :: n :: rest =>
      match parseA fuel (.fields n) rest with
      | some (.fields l, r) => some (.one (.obj l), r)
      | _ => none
    | _ => none
  | _ + 1, .items 0, bytes => some (.items [], bytes)
  | fuel + 1, .items (n + 1), bytes =>
    match parseA fuel .one bytes with
    | some (.one j, r) =>
      match parseA fuel (.items n) r with
      | some (.items l, r2) => some (.items (j :: l), r2)
      | _ => none
    | _ => none
  | _ + 1, .fields 0, bytes => some (.fields [], bytes)
  | fuel + 1, .fields (n + 1), bytes =>
    match bytes with
    | klen :: rest =>
      if klen ≤ rest.length then
        match parseA fuel .one (rest.drop klen) with
        | some (.one v, r) =>
          match parseA fuel (.fields n) r with
          | some (.fields l, r2) => some (.fields ((rest.take klen, v) :: l), r2)
          | _ => none
        | _ => none
      else none
    | [] => none

/-- `json.loads`: parse a complete serialized value, `none` on failure
or trailing garbage. -/
def json_loads (bs : List Nat) : Option Json :=
  match parseA bs.length .one bs with
  | some (.one j, []) => some j
  | _ => none

/-! ## Frame builders (volcengine_asr.py, lines 47-74) -/

/-- `_build_header` (lines 47-54): the 4-byte protocol header. -/
def _build_header (message_type flags serialization compression : Nat) : List Nat :=
  [(PROTOCOL_VERSION <<< 4) ||| HEADER_SIZE,
   (message_type <<< 4) ||| flags,
   (serialization <<< 4) ||| compression,
   0]

/-- `_build_request` (lines 57-62): header + seq + payload size + gzipped JSON payload. -/
def _build_request (payload : Json) (seq : Int) : Option (List Nat) :=
  let payload_bytes := json_dumps payload
  let compressed := gzip_compress payload_bytes
  let header := _build_header CLIENT_FULL_REQUEST MSG_POS_SEQUENCE MSG_JSON MSG_GZIP
  match pack_i32 seq, pack_u32 compressed.length with
  | some sb, some lb => some (header ++ sb ++ lb ++ compressed)
  | _, _ => none

/-- `_build_audio_frame` (lines 65-74): audio frame; `is_last` negates the
sequence number and sets the `MSG_NEG_WITH_SEQUENCE` flags. -/
def _build_audio_frame (audio_bytes : List Nat) (seq : Int) (is_last : Bool) : Option (List Nat) :=
  let fs : Nat × Int := if is_last then (MSG_NEG_WITH_SEQUENCE, -seq) else (MSG_POS_SEQUENCE, seq)
  let header := _build_header CLIENT_AUDIO_ONLY fs.1 MSG_JSON MSG_GZIP
  let compressed := gzip_compress audio_bytes
  match pack_i32 fs.2, pack_u32 compressed.length with
  | some sb, some lb => some (header ++ sb ++ lb ++ compressed)
  | _, _ => none

/-! ## Response parser (volcengine_asr.py, lines 77-135) -/

/-- Python exceptions that can escape `_parse_response`: `struct.error`,
gzip decompression errors, `json.loads` errors, and the
`AttributeError`/`TypeError` raised when the decoded payload does not
have the shape the extraction code expects. -/
inductive PyError where
  | structError : PyError
  | gzipError : PyError
  | jsonError : PyError
  | shapeError : PyError
deriving DecidableEq

/-- The text slot of the error dict `_parse_response` returns: either the
literal "响应数据太短" string or `str(error_info)` for a server error. -/
inductive ErrText where
  | tooShort : ErrText
  | fromInfo (info : Json) : ErrText

/-- The dict returned by `_parse_response`: `{"type": ...}` variants. -/
inductive Resp where
  | result (text : Json) (is_final : Bool) : Resp
  | ack : Resp
  | error (e : ErrText) : Resp
  | unknown : Resp

/-- The "result" and "text" dict keys, as byte strings. -/
def kResult : List Nat := [114, 101, 115, 117, 108, 116]

def kText : List Nat := [116, 101, 120, 116]

/-- Dict lookup: Python's `d.get(k, default)` on the association list. -/
def jget (fields : List (List Nat × Json)) (key : List Nat) : Option Json :=
  match fields with
  | [] => none
  | (k, v) :: rest => if k = key then some v else jget rest key

/-- `"".join(item.get("text", "") for item in items)`: every item must be
a dict (else `AttributeError`) and every extracted part a string (else
`TypeError` in `join`); both are modelled as `none`. -/
def joinTexts (items : List Json) : Option (List Nat) :=
  match items with
  | [] => some []
  | .obj f :: rest =>
    match (jget f kText).getD (.str []) with
    | .str s => (joinTexts rest).map (fun t => s ++ t)
    | _ => none
  | _ :: _ => none

/-- Lines 107-121: result/text extraction from the decoded JSON message.
`msg.get("result", {})` requires `msg` to be a dict; a dict result yields
its `"text"` value, a list result yields the joined `"text"` fields. -/
def extract_result (msg : Json) (is_final : Bool) : Except PyError Resp :=
  match msg with
  | .obj mfields =>
    match (jget mfields kResult).getD (.obj []) with
    | .obj rfields => .ok (.result ((jget rfields kText).getD (.str [])) is_final)
    | .arr items =>
      match joinTexts items with
      | some t => .ok (.result (.str t) is_final)
      | none => .error .shapeError
    | _ => .error .shapeError
  | _ => .error .shapeError

/-- `_parse_response` (lines 77-135). Returns the response dict, or the
Python exception that the source would let escape. -/
def _parse_response (data : List Nat) : Except PyError Resp :=
  if data.length < 4 then .ok (.error .tooShort)
  else
    let b0 := data.getD 0 0
    let b1 := data.getD 1 0
    let b2 := data.getD 2 0
    let msg_type := (b1 >>> 4) &&& 15
    let flags := b1 &&& 15
    let serialization := (b2 >>> 4) &&& 15
    let compression := b2 &&& 15
    let header_word_size := b0 &&& 15
    let payload0 := data.drop (header_word_size * 4)
    let payload := if flags &&& 1 ≠ 0 then payload0.drop 4 else payload0
    let is_final := flags &&& 2 ≠ 0
    if msg_type = SERVER_FULL_RESPONSE then
      match unpack_u32 (payload.take 4) with
      | none => .error .structError
      | some payload_size =>
        let payload_bytes := (payload.drop 4).take payload_size
        match (if compression = MSG_GZIP then gzip_decompress payload_bytes
               else some payload_bytes) with
        | none => .error .gzipError
        | some payload_bytes2 =>
          if serialization = MSG_JSON then
            match json_loads payload_bytes2 with
            | none => .error .jsonError
            | some msg => extract_result msg is_final
          else .ok .unknown
    else if msg_type = SERVER_ACK then .ok .ack
    else if msg_type = SERVER_ERROR then
      match unpack_i32 (payload.take 4) with
      | none => .error .structError
      | some _code =>
        match unpack_u32 ((payload.drop 4).take 4) with
        | none => .error .structError
        | some err_payload_size =>
          let payload_bytes := (payload.drop 8).take err_payload_size
          match (if compression = MSG_GZIP then gzip_decompress payload_bytes
                 else some payload_bytes) with
          | none => .error .gzipError
          | some payload_bytes2 =>
            if serialization = MSG_JSON then
              match json_loads payload_bytes2 with
              | none => .error .jsonError
              | some info => .ok (.error (.fromInfo info))
            else .ok (.error (.fromInfo (.obj [])))
    else .ok .unknown

/-! ## Server full-response frames

`_parse_response` extracts payloads only from server-typed frames.  To
state round-trip properties about it we need the server-side encoder it
was written against: a frame with the same framing as `_build_request`
(4-byte header, big-endian i32 sequence, big-endian u32 payload size,
payload) but with message type `SERVER_FULL_RESPONSE`.  `mk_server_frame`
takes the raw payload bytes; `_build_response` is the exact counterpart
of `_build_request` (JSON-serialized, gzipped payload). -/

def mk_server_frame (body : List Nat) (seq : Int) : Option (List Nat) :=
  let header := _build_header SERVER_FULL_RESPONSE MSG_POS_SEQUENCE MSG_JSON MSG_GZIP
  match pack_i32 seq, pack_u32 body.length with
  | some sb, some lb => some (header ++ sb ++ lb ++ body)
  | _, _ => none

def _build_response (payload : Json) (seq : Int) : Option (List Nat) :=
  mk_server_frame (gzip_compress (json_dumps payload)) seq

/-! ## Wire-level sequence and flag fields

`_parse_response` locates the sequence field from the header word count
(line 89) and reads the flag nibble from byte 1 (line 84); it skips the
sequence value itself.  `frame_seq`/`frame_flags` decode those two wire
fields of a frame, following exactly that layout. -/

def frame_flags (f : List Nat) : Nat := f.getD 1 0 &&& 15

def frame_seq (f : List Nat) : Option Int :=
  unpack_i32 ((f.drop ((f.getD 0 0 &&& 15) * 4)).take 4)

/-! ## Transmitted-frame trace of one session

`_session` (line 246) sends `_build_request(init_payload, self._seq)`
with `self._seq = 1` and increments; `_send_audio_loop` (lines 277-323)
sends each drained chunk as `_build_audio_frame(chunk, self._seq,
is_last=False)`, incrementing after each send, and finally sends the
terminal marker `_build_audio_frame(b"", self._seq, is_last=True)`.
`session_frames` is the trace of frames such a session puts on the wire
when every send succeeds. -/

def audio_frames_from : Int → List (List Nat) → Option (List (List Nat))
  | _, [] => some []
  | seq, c :: rest =>
    match _build_audio_frame c seq false, audio_frames_from (seq + 1) rest with
    | some f, some fs => some (f :: fs)
    | _, _ => none

def session_frames (init : Json) (chunks : List (List Nat)) : Option (List (List Nat)) :=
  match _build_request init 1, audio_frames_from 2 chunks,
        _build_audio_frame [] (2 + chunks.length) true with
  | some h, some audio, some t => some (h :: audio ++ [t])
  | _, _, _ => none

/-! ## Bounded send buffer (volcengine_asr.py, lines 141-145, 374-389) -/

def CHUNK_SIZE : Nat := 16000 * 2 * 200 / 1000

def MAX_BUFFER_SIZE : Nat := CHUNK_SIZE * 60

/-- The `feed_audio`-relevant state of a `VolcengineStreamingASR`
instance: `_audio_buffer`, `_overflow_notified`, `_stopped`. -/
structure ASRBuffer where
  audio_buffer : List Nat
  overflow_notified : Bool
  stopped : Bool
deriving DecidableEq

/-- `feed_audio` (lines 374-389).  Returns the new state and whether the
overflow warning was printed by this call. -/
def feed_audio (s : ASRBuffer) (pcm_bytes : List Nat) : ASRBuffer × Bool :=
  if s.stopped || pcm_bytes.isEmpty then (s, false)
  else if MAX_BUFFER_SIZE < (s.audio_buffer ++ pcm_bytes).length then
    if s.overflow_notified then
      ({ s with
          audio_buffer :=
            List.drop ((s.audio_buffer ++ pcm_bytes).length - MAX_BUFFER_SIZE)
              (s.audio_buffer ++ pcm_bytes) },
        false)
    else
      ({ s with
          audio_buffer :=
            List.drop ((s.audio_buffer ++ pcm_bytes).length - MAX_BUFFER_SIZE)
              (s.audio_buffer ++ pcm_bytes),
          overflow_notified := true },
        true)
  else ({ s with audio_buffer := s.audio_buffer ++ pcm_bytes }, false)

/-- The buffer state right after `start` (lines 179-190): cleared buffer,
overflow flag reset, not stopped. -/
def asr_start_state : ASRBuffer := ⟨[], false, false⟩

/-- Fold `feed_audio` over a list of inputs; returns the intermediate
states after each call, and the number of warnings printed. -/
def feed_run (s : ASRBuffer) : List (List Nat) → List ASRBuffer × Nat
  | [] => ([], 0)
  | p :: rest =>
    let r := feed_audio s p
    let rr := feed_run r.1 rest
    (r.1 :: rr.1, (cond r.2 1 0) + rr.2)

/-! ## stop() blocking structure (volcengine_asr.py, lines 146-149, 391-418)

`stop()` performs, in order: a `_done_event.wait(STOP_WAIT_TIMEOUT_SECONDS)`
(line 405); on timeout, a `future.result(timeout=FORCE_CLOSE_WAIT_SECONDS)`
on the scheduled `ws.close()` (lines 409-415, exceptions swallowed); and a
final `_done_event.wait(FORCE_CLOSE_WAIT_SECONDS)` (line 417).  The model
charges each blocking primitive its wall-clock cost as a function of the
environment: when the done event fires (if ever), and how long the
transport close takes (`none` = the network is stalled and it never
completes). -/

def STOP_WAIT_TIMEOUT_SECONDS : Int := 12

def FORCE_CLOSE_WAIT_SECONDS : Int := 2

structure StopEnv where
  thread_present : Bool
  done_at : Option Int
  ws_present : Bool
  loop_open : Bool
  close_at : Option Int

/-- `threading.Event.wait(timeout)` entered at instant `now`: the blocked
duration and whether the event was observed set. -/
def event_wait (done_at : Option Int) (now timeout : Int) : Int × Bool :=
  match done_at with
  | none => (timeout, false)
  | some t =>
    if t ≤ now then (0, true)
    else if t - now ≤ timeout then (t - now, true)
    else (timeout, false)

/-- The duration of the forced-close attempt (lines 409-415): only
taken when a transport and a live loop exist; bounded by the
`future.result` timeout; `none` (stalled close) costs the full timeout. -/
def stage2_close_wait (env : StopEnv) : Int :=
  if env.ws_present && env.loop_open then
    match env.close_at with
    | none => FORCE_CLOSE_WAIT_SECONDS
    | some c => min c FORCE_CLOSE_WAIT_SECONDS
  else 0

/-- Wall-clock duration `stop()` blocks before returning. -/
def stop_elapsed (env : StopEnv) : Int :=
  if env.thread_present = false then 0
  else if (event_wait env.done_at 0 STOP_WAIT_TIMEOUT_SECONDS).2 then
    (event_wait env.done_at 0 STOP_WAIT_TIMEOUT_SECONDS).1
  else
    (event_wait env.done_at 0 STOP_WAIT_TIMEOUT_SECONDS).1 + stage2_close_wait env +
      (event_wait env.done_at
        ((event_wait env.done_at 0 STOP_WAIT_TIMEOUT_SECONDS).1 + stage2_close_wait env)
        FORCE_CLOSE_WAIT_SECONDS).1

/-! ## AudioRecorder (audio_recorder.py)

State fields mirror the instance attributes used by `start`, `stop`,
`_audio_callback` and `_trigger_auto_stop`; the callbacks themselves are
tracked as presence flags; the stream handle as an open/closed flag.
The `webrtcvad` library classification is a parameter
`vad : List Int → Bool` of the frame handler (a per-window exception,
swallowed at lines 191-193, is the `vad` returning false). -/

def VAD_FRAME_SAMPLES : Nat := 16000 * 30 / 1000

inductive StopReason where
  | timeout : StopReason
  | silence : StopReason
deriving DecidableEq

structure RecState where
  recording : Bool
  auto_stopped : Bool
  audio_chunks : List (List Int)
  vad_buffer : List Int
  start_time : Int
  last_voice_time : Int
  max_duration : Int
  silence_timeout : Int
  has_auto_stop_cb : Bool
  has_chunk_cb : Bool
  auto_stop_reason : Option StopReason
  stream_open : Bool

/-- The state after `__init__` (lines 25-56). -/
def rec_init_state : RecState :=
  ⟨false, false, [], [], 0, 0, 60, 3, false, false, none, false⟩

/-- `start` (lines 63-119).  Returns the new state and whether the
exception from opening the input stream was re-raised.  A second `start`
while recording is a no-op (lines 75-76); on open failure all partial
state is rolled back (lines 102-119) and the error re-raised. -/
def startRec (s : RecState) (now max_duration silence_timeout : Int)
    (has_auto_cb has_chunk_cb open_fails : Bool) : RecState × Bool :=
  if s.recording then (s, false)
  else if open_fails then
    ({ s with
        recording := false, audio_chunks := [], vad_buffer := [],
        start_time := 0, last_voice_time := 0,
        max_duration := max_duration, silence_timeout := silence_timeout,
        has_auto_stop_cb := false, has_chunk_cb := false,
        auto_stop_reason := none, auto_stopped := false, stream_open := false },
      true)
  else
    ({ s with
        recording := true, audio_chunks := [], vad_buffer := [],
        start_time := now, last_voice_time := now,
        max_duration := max_duration, silence_timeout := silence_timeout,
        has_auto_stop_cb := has_auto_cb, has_chunk_cb := has_chunk_cb,
        auto_stop_reason := none, auto_stopped := false, stream_open := true },
      false)

/-- `stop` (lines 121-154): idempotently halts capture, closes the
stream, returns the concatenation of the recorded chunks and clears the
accumulation buffer. -/
def stopRec (s : RecState) : RecState × List Int :=
  if s.recording = false then (s, [])
  else
    ({ s with
        recording := false, auto_stopped := true, stream_open := false,
        audio_chunks := [] },
      if s.audio_chunks.isEmpty then [] else s.audio_chunks.flatten)

/-- `_trigger_auto_stop` (lines 205-216): double-checked; sets the flag
and reason, and fires the callback (the returned event) when present. -/
def _trigger_auto_stop (s : RecState) (reason : StopReason) :
    RecState × Option StopReason :=
  if s.auto_stopped || !s.recording then (s, none)
  else
    ({ s with auto_stopped := true, auto_stop_reason := some reason },
      if s.has_auto_stop_cb then some reason else none)

/-- The VAD while-loop of `_audio_callback` (lines 182-193): consume
complete 480-sample windows, updating `last_voice_time` to the callback
time on each speech-classified window.  Structural fuel (≥ the number of
windows) stands in for the while loop. -/
def vad_consume (vad : List Int → Bool) : Nat → List Int → Int → Int → List Int × Int
  | 0, buf, _, last => (buf, last)
  | fuel + 1, buf, now, last =>
    if VAD_FRAME_SAMPLES ≤ buf.length then
      vad_consume vad fuel (buf.drop VAD_FRAME_SAMPLES) now
        (if vad (buf.take VAD_FRAME_SAMPLES) then now else last)
    else (buf, last)

/-- One microphone frame delivered to `_audio_callback`: the wall-clock
instant of the callback and the PCM samples. -/
structure FrameIn where
  time : Int
  samples : List Int

/-- The `last_voice_time` after the VAD loop has processed frame `f`
from state `s`. -/
def post_voice (vad : List Int → Bool) (s : RecState) (f : FrameIn) : Int :=
  (vad_consume vad (s.vad_buffer ++ f.samples).length (s.vad_buffer ++ f.samples)
    f.time s.last_voice_time).2

/-- The residual `vad_buffer` left after the VAD loop has processed frame `f`. -/
def post_buffer (vad : List Int → Bool) (s : RecState) (f : FrameIn) : List Int :=
  (vad_consume vad (s.vad_buffer ++ f.samples).length (s.vad_buffer ++ f.samples)
    f.time s.last_voice_time).1

/-- `_audio_callback` (lines 160-203).  Returns the new state and the
`on_auto_stop` event fired by this invocation, if any. -/
def _audio_callback (vad : List Int → Bool) (s : RecState) (f : FrameIn) :
    RecState × Option StopReason :=
  if !s.recording || s.auto_stopped then (s, none)
  else if s.max_duration ≤ f.time - s.start_time then
    _trigger_auto_stop
      { s with
          audio_chunks := s.audio_chunks ++ [f.samples],
          vad_buffer := post_buffer vad s f,
          last_voice_time := post_voice vad s f }
      StopReason.timeout
  else if s.silence_timeout ≤ f.time - post_voice vad s f then
    _trigger_auto_stop
      { s with
          audio_chunks := s.audio_chunks ++ [f.samples],
          vad_buffer := post_buffer vad s f,
          last_voice_time := post_voice vad s f }
      StopReason.silence
  else
    ({ s with
        audio_chunks := s.audio_chunks ++ [f.samples],
        vad_buffer := post_buffer vad s f,
        last_voice_time := post_voice vad s f },
      none)

/-- Fold `_audio_callback` over a list of frames, collecting the fired
events in order. -/
def run_callbacks (vad : List Int → Bool) (s : RecState) :
    List FrameIn → RecState × List (Option StopReason)
  | [] => (s, [])
  | f :: rest =>
    ((run_callbacks vad (_audio_callback vad s f).1 rest).1,
      (_audio_callback vad s f).2 :: (run_callbacks vad (_audio_callback vad s f).1 rest).2)

def fired_count (es : List (Option StopReason)) : Nat := (es.filterMap id).length

/-- A live recorder state used to instantiate C5: recording, callback
installed, `max_duration = 0` so the very first frame crosses the
timeout threshold. -/
def rec_started_state : RecState :=
  ⟨true, false, [], [], 0, 0, 0, 3, true, false, none, true⟩

/-! ## Theorems -/

theorem pack_u32_spec (n : Nat) (h : n < 4294967296) :
    ∃ bs, pack_u32 n = some bs ∧ bs.length = 4 ∧ unpack_u32 bs = some n := by
  refine ⟨[n / 16777216 % 256, n / 65536 % 256, n / 256 % 256, n % 256], ?_, rfl, ?_⟩
  · simp [pack_u32, h]
  · simp only [unpack_u32, Option.some.injEq]
    omega

theorem pack_i32_spec (n : Int) (h1 : -2147483648 ≤ n) (h2 : n < 2147483648) :
    ∃ bs, pack_i32 n = some bs ∧ bs.length = 4 ∧ unpack_i32 bs = some n := by
  have hlt : (n % 4294967296).toNat < 4294967296 := by omega
  obtain ⟨bs, hpack, hlen, hunpack⟩ := pack_u32_spec (n % 4294967296).toNat hlt
  refine ⟨bs, ?_, hlen, ?_⟩
  · simp [pack_i32, h1, h2, hpack]
  · have heq : unpack_i32 bs
        = some (if (n % 4294967296).toNat < 2147483648
                then (((n % 4294967296).toNat : Nat) : Int)
                else (((n % 4294967296).toNat : Nat) : Int) - 4294967296) := by
      simp only [unpack_i32, hunpack]
    rw [heq]
    by_cases hc : (n % 4294967296).toNat < 2147483648
    · rw [if_pos hc]
      congr 1
      omega
    · rw [if_neg hc]
      congr 1
      omega

theorem json_dumps_length_pos (j : Json) : 1 ≤ (json_dumps j).length := by
  cases j <;> simp only [json_dumps, List.length_cons] <;> omega

theorem parseA_dumps_all : ∀ N : Nat,
    (∀ j : Json, sizeOf j ≤ N → ∀ fuel rest, (json_dumps j).length ≤ fuel →
      parseA fuel .one (json_dumps j ++ rest) = some (.one j, rest)) ∧
    (∀ l : List Json, sizeOf l ≤ N → ∀ fuel rest, (dumps_list l).length < fuel →
      parseA fuel (.items l.length) (dumps_list l ++ rest) = some (.items l, rest)) ∧
    (∀ fs : List (List Nat × Json), sizeOf fs ≤ N → ∀ fuel rest,
      (dumps_fields fs).length < fuel →
      parseA fuel (.fields fs.length) (dumps_fields fs ++ rest) = some (.fields fs, rest)) := by
  intro N
  induction N using Nat.strong_induction_on with
  | _ N ih =>
  refine ⟨?_, ?_, ?_⟩
  · intro j hsz fuel rest hf
    match j with
    | .null =>
      match fuel, hf with
      | f + 1, _ => simp [parseA, json_dumps]
    | .bool b =>
      match fuel, hf with
      | f + 1, _ => cases b <;> simp [parseA, json_dumps]
    | .num n =>
      match fuel, hf with
      | f + 1, _ =>
        by_cases hn : n < 0
        · have hd : (decide (n < 0)) = true := by simpa using hn
          simp [json_dumps, hd, parseA, abs_of_neg hn]
        · have hd : (decide (n < 0)) = false := by simpa using hn
          simp [json_dumps, hd, parseA, abs_of_nonneg (not_lt.mp hn)]
    | .str s =>
      simp only [json_dumps, List.length_cons] at hf
      match fuel, hf with
      | f + 1, _ =>
        simp only [json_dumps, List.cons_append, parseA]
        rw [if_pos (by simp)]
        simp [List.take_left, List.drop_left]
    | .arr items =>
      simp only [json_dumps, List.length_cons] at hf
      match fuel, hf with
      | f + 1, _ =>
        have hszi : sizeOf items < N := by
          have := Json.arr.sizeOf_spec items; omega
        have h2 := (ih (sizeOf items) hszi).2.1 items le_rfl f rest (by omega)
        simp only [json_dumps, List.cons_append, parseA, h2]
    | .obj fields =>
      simp only [json_dumps, List.length_cons] at hf
      match fuel, hf with
      | f + 1, _ =>
        have hszi : sizeOf fields < N := by
          have := Json.obj.sizeOf_spec fields; omega
        have h2 := (ih (sizeOf fields) hszi).2.2 fields le_rfl f rest (by omega)
        simp only [json_dumps, List.cons_append, parseA, h2]
  · intro l hsz fuel rest hl
    match l with
    | [] =>
      match fuel, hl with
      | f + 1, _ => simp [parseA, dumps_list]
    | j :: tl =>
      simp only [dumps_list, List.length_append] at hl
      have hj1 := json_dumps_length_pos j
      match fuel, hl with
      | f + 1, _ =>
        have hsj : sizeOf j < N := by
          have := List.cons.sizeOf_spec j tl; omega
        have hst : sizeOf tl < N := by
          have := List.cons.sizeOf_spec j tl; omega
        have h1 := (ih (sizeOf j) hsj).1 j le_rfl f (dumps_list tl ++ rest) (by omega)
        have h2 := (ih (sizeOf tl) hst).2.1 tl le_rfl f rest (by omega)
        simp only [dumps_list, List.append_assoc, List.length_cons, parseA, h1, h2]
  · intro fs hsz fuel rest hl
    match fs with
    | [] =>
      match fuel, hl with
      | f + 1, _ => simp [parseA, dumps_fields]
    | (k, v) :: tl =>
      simp only [dumps_fields, List.length_append, List.length_cons] at hl
      have hv1 := json_dumps_length_pos v
      match fuel, hl with
      | f + 1, _ =>
        have hsv : sizeOf v < N := by
          have h1 := List.cons.sizeOf_spec (k, v) tl
          have h2 := Prod.mk.sizeOf_spec k v
          omega
        have hst : sizeOf tl < N := by
          have h1 := List.cons.sizeOf_spec (k, v) tl
          omega
        have h1 := (ih (sizeOf v) hsv).1 v le_rfl f (dumps_fields tl ++ rest) (by omega)
        have h2 := (ih (sizeOf tl) hst).2.2 tl le_rfl f rest (by omega)
        simp only [dumps_fields, List.cons_append, List.append_assoc, List.length_cons, parseA]
        rw [if_pos (by simp)]
        rw [List.drop_left, List.take_left]
        simp only [h1, h2]

theorem parseA_json_dumps (j : Json) (fuel : Nat) (rest : List Nat)
    (h : (json_dumps j).length ≤ fuel) :
    parseA fuel .one (json_dumps j ++ rest) = some (.one j, rest) :=
  (parseA_dumps_all (sizeOf j)).1 j le_rfl fuel rest h

/-- Library round trip: `json.loads(json.dumps(x)) = x`. -/
theorem json_loads_dumps (j : Json) : json_loads (json_dumps j) = some j := by
  have h := parseA_json_dumps j (json_dumps j).length [] le_rfl
  simp only [List.append_nil] at h
  simp [json_loads, h]

/-- Library round trip: `gzip.decompress(gzip.compress(x)) = x`. -/
theorem gzip_decompress_compress (bs : List Nat) :
    gzip_decompress (gzip_compress bs) = some bs := by
  simp [gzip_compress, gzip_decompress]

theorem pack_u32_eq_some (n : Nat) (bs : List Nat) (h : pack_u32 n = some bs) :
    n < 4294967296 ∧ bs.length = 4 ∧ unpack_u32 bs = some n := by
  by_cases hn : n < 4294967296
  · obtain ⟨bs2, h2, hlen, hun⟩ := pack_u32_spec n hn
    rw [h2] at h
    cases h
    exact ⟨hn, hlen, hun⟩
  · simp [pack_u32, hn] at h

theorem pack_i32_eq_some (n : Int) (bs : List Nat) (h : pack_i32 n = some bs) :
    bs.length = 4 ∧ unpack_i32 bs = some n := by
  by_cases hn : -2147483648 ≤ n ∧ n < 2147483648
  · obtain ⟨bs2, h2, hlen, hun⟩ := pack_i32_spec n hn.1 hn.2
    rw [h2] at h
    cases h
    exact ⟨hlen, hun⟩
  · simp [pack_i32, hn] at h

/-- Decoding any well-formed server full-response frame follows the
gzip → json → result-extraction pipeline of lines 99-121. -/
theorem parse_server_frame (body : List Nat) (seq : Int) (frame : List Nat)
    (h : mk_server_frame body seq = some frame) :
    _parse_response frame =
      (match gzip_decompress body with
       | none => .error .gzipError
       | some pb =>
         match json_loads pb with
         | none => .error .jsonError
         | some msg => extract_result msg false) := by
  rcases hsb : pack_i32 seq with _ | sb
  · simp [mk_server_frame, hsb] at h
  rcases hlb : pack_u32 body.length with _ | lb
  · simp [mk_server_frame, hsb, hlb] at h
  simp only [mk_server_frame, hsb, hlb, Option.some.injEq] at h
  obtain ⟨hsl, _⟩ := pack_i32_eq_some seq sb hsb
  obtain ⟨_, hll, hlu⟩ := pack_u32_eq_some body.length lb hlb
  have hh : _build_header SERVER_FULL_RESPONSE MSG_POS_SEQUENCE MSG_JSON MSG_GZIP
      = [17, 145, 17, 0] := rfl
  rw [hh] at h
  subst h
  have hframe : ([17, 145, 17, 0] ++ sb ++ lb ++ body : List Nat)
      = 17 :: 145 :: 17 :: 0 :: (sb ++ (lb ++ body)) := by
    simp [List.append_assoc]
  rw [hframe]
  rw [_parse_response]
  rw [if_neg (by simp)]
  simp only [List.getD_cons_zero, List.getD_cons_succ]
  have e1 : ((145 : Nat) >>> 4) &&& 15 = 9 := by decide
  have e2 : (145 : Nat) &&& 15 = 1 := by decide
  have e3 : ((17 : Nat) >>> 4) &&& 15 = 1 := by decide
  have e4 : (17 : Nat) &&& 15 = 1 := by decide
  have e5 : (1 : Nat) &&& 1 = 1 := by decide
  have e6 : (1 : Nat) &&& 2 = 0 := by decide
  simp only [e1, e2, e3, e4, e5, e6]
  have hdrop : (17 :: 145 :: 17 :: 0 :: (sb ++ (lb ++ body)) : List Nat).drop (1 * 4)
      = sb ++ (lb ++ body) := by simp
  rw [hdrop]
  have hdrop2 : (sb ++ (lb ++ body)).drop 4 = lb ++ body := by
    rw [← hsl]
    exact List.drop_left sb (lb ++ body)
  have htake4 : (lb ++ body).take 4 = lb := by
    rw [← hll]
    exact List.take_left lb body
  have hdrop4 : (lb ++ body).drop 4 = body := by
    rw [← hll]
    exact List.drop_left lb body
  simp [SERVER_FULL_RESPONSE, MSG_JSON, MSG_GZIP, hdrop2, htake4, hlu, hdrop4,
    List.take_length]

/-- Decoding a well-formed server full-response frame built over a
JSON payload applies the source's result extraction to that payload. -/
theorem parse_build_response (p : Json) (seq : Int) (frame : List Nat)
    (h : _build_response p seq = some frame) :
    _parse_response frame = extract_result p false := by
  have hp := parse_server_frame _ seq frame h
  rw [hp, gzip_decompress_compress]
  simp [json_loads_dumps]

/-- C1.  The claim reads `_parse_response (_build_request payload seq)`
recovers `payload`.  It does not: `_build_request` tags its frames with
message type `CLIENT_FULL_REQUEST`, and `_parse_response` extracts a
payload only from `SERVER_FULL_RESPONSE` / `SERVER_ACK` / `SERVER_ERROR`
frames, so the decode of an encoded request is the payload-free
`{"type": "unknown"}` dict.  Concrete input: payload `{}`, seq 1. -/
theorem C1_roundtrip_counterexample :
    _build_request (Json.obj []) 1
      = some [17, 17, 17, 0, 0, 0, 0, 1, 0, 0, 0, 5, 31, 139, 2, 5, 0] ∧
    _parse_response [17, 17, 17, 0, 0, 0, 0, 1, 0, 0, 0, 5, 31, 139, 2, 5, 0]
      = .ok .unknown :=
  ⟨rfl, rfl⟩

/-- C1 (amended).  Round-trip through the decoder holds for the server
counterpart of the encoding: re-tagging the `_build_request` framing with
message type `SERVER_FULL_RESPONSE` (`_build_response`) and decoding
recovers the original payload's `result.text` field. -/
theorem C1_roundtrip_amended (fields rfields : List (List Nat × Json)) (t : Json)
    (seq : Int) (frame : List Nat)
    (h1 : jget fields kResult = some (.obj rfields))
    (h2 : jget rfields kText = some t)
    (hb : _build_response (.obj fields) seq = some frame) :
    _parse_response frame = .ok (.result t false) := by
  rw [parse_build_response _ seq frame hb]
  simp [extract_result, h1, h2]

theorem C1_roundtrip_amended_witness :
    _parse_response
        ((_build_response (.obj [(kResult, .obj [(kText, .str [104, 105])])]) 1).getD [])
      = .ok (.result (.str [104, 105]) false) :=
  C1_roundtrip_amended [(kResult, .obj [(kText, .str [104, 105])])]
    [(kText, .str [104, 105])] (.str [104, 105]) 1 _ rfl rfl rfl

theorem joinTexts_map (parts : List (List (List Nat × Json) × List Nat))
    (h : ∀ p ∈ parts, jget p.1 kText = some (.str p.2)) :
    joinTexts (parts.map fun p => Json.obj p.1) = some (parts.map Prod.snd).flatten := by
  induction parts with
  | nil => simp [joinTexts]
  | cons p tl ih =>
    have hp := h p (List.mem_cons_self p tl)
    have htl := ih (fun q hq => h q (List.mem_cons_of_mem p hq))
    simp [joinTexts, hp, htl]

/-- C9.  `_parse_response` accepts both legacy result-payload shapes
(lines 106-121): a dict `result` yields its `"text"` value, and a list
`result` of dicts yields the in-order concatenation of their `"text"`
fields. -/
theorem C9_legacy_result_shapes :
    (∀ (fields rfields : List (List Nat × Json)) (t : Json) (seq : Int) (frame : List Nat),
      jget fields kResult = some (.obj rfields) →
      jget rfields kText = some t →
      _build_response (.obj fields) seq = some frame →
      _parse_response frame = .ok (.result t false)) ∧
    (∀ (fields : List (List Nat × Json))
       (parts : List (List (List Nat × Json) × List Nat)) (seq : Int) (frame : List Nat),
      jget fields kResult = some (.arr (parts.map fun p => Json.obj p.1)) →
      (∀ p ∈ parts, jget p.1 kText = some (.str p.2)) →
      _build_response (.obj fields) seq = some frame →
      _parse_response frame = .ok (.result (.str (parts.map Prod.snd).flatten) false)) := by
  constructor
  · intro fields rfields t seq frame h1 h2 hb
    rw [parse_build_response _ seq frame hb]
    simp [extract_result, h1, h2]
  · intro fields parts seq frame h1 h2 hb
    rw [parse_build_response _ seq frame hb]
    simp [extract_result, h1, joinTexts_map parts h2]

theorem C9_legacy_result_shapes_witness :
    _parse_response
        ((_build_response (.obj [(kResult, .obj [(kText, .str [104, 105])])]) 2).getD [])
      = .ok (.result (.str [104, 105]) false) ∧
    _parse_response
        ((_build_response
            (.obj [(kResult, .arr [.obj [(kText, .str [104])], .obj [(kText, .str [105])]])])
            2).getD [])
      = .ok (.result (.str [104, 105]) false) := by
  constructor
  · exact C9_legacy_result_shapes.1 [(kResult, .obj [(kText, .str [104, 105])])]
      [(kText, .str [104, 105])] (.str [104, 105]) 2 _ rfl rfl rfl
  · have h := C9_legacy_result_shapes.2
      [(kResult, .arr [.obj [(kText, .str [104])], .obj [(kText, .str [105])]])]
      [([(kText, .str [104])], [104]), ([(kText, .str [105])], [105])] 2
      ((_build_response
          (.obj [(kResult, .arr [.obj [(kText, .str [104])], .obj [(kText, .str [105])]])])
          2).getD [])
      rfl ?_ rfl
    · simpa using h
    · intro p hp
      simp only [List.mem_cons, List.not_mem_nil, or_false] at hp
      rcases hp with rfl | rfl
      · rfl
      · rfl

/-- C2 counterexample.  The claim says a declared payload length that
exceeds the remaining buffer must fail as a malformed frame.  The source
never checks: `payload[4:4+payload_size]` silently truncates.  Concrete
input: a server full-response frame whose size field declares 6 bytes
while only 5 remain; the decode succeeds with a normal result instead of
failing.  The last two conjuncts exhibit the excess declared length. -/
theorem C2_malformed_counterexample :
    _parse_response [17, 145, 17, 0, 0, 0, 0, 1, 0, 0, 0, 6, 31, 139, 2, 5, 0]
      = .ok (.result (.str []) false) ∧
    unpack_u32 [0, 0, 0, 6] = some 6 ∧
    ([31, 139, 2, 5, 0] : List Nat).length < 6 :=
  ⟨rfl, rfl, by decide⟩

/-- C2 (amended).  Inputs shorter than 4 bytes are rejected with the
too-short error dict; decompression failure and payload-parse failure
raise the corresponding decoding errors.  (A declared length exceeding
the buffer is NOT rejected: the payload is truncated to the available
bytes, see `C2_malformed_counterexample`.) -/
theorem C2_error_handling :
    (∀ data : List Nat, data.length < 4 → _parse_response data = .ok (.error .tooShort)) ∧
    (∀ (body : List Nat) (seq : Int) (frame : List Nat),
      gzip_decompress body = none → mk_server_frame body seq = some frame →
      _parse_response frame = .error .gzipError) ∧
    (∀ (bs : List Nat) (seq : Int) (frame : List Nat),
      json_loads bs = none → mk_server_frame (gzip_compress bs) seq = some frame →
      _parse_response frame = .error .jsonError) := by
  refine ⟨?_, ?_, ?_⟩
  · intro data h
    rw [_parse_response, if_pos h]
  · intro body seq frame hgz h
    rw [parse_server_frame body seq frame h, hgz]
  · intro bs seq frame hjs h
    rw [parse_server_frame _ seq frame h, gzip_decompress_compress]
    simp [hjs]

theorem C2_error_handling_witness :
    _parse_response [1, 2] = .ok (.error .tooShort) ∧
    _parse_response ((mk_server_frame [9] 1).getD []) = .error .gzipError ∧
    _parse_response ((mk_server_frame (gzip_compress [9]) 1).getD []) = .error .jsonError :=
  ⟨C2_error_handling.1 [1, 2] (by decide),
   C2_error_handling.2.1 [9] 1 _ rfl rfl,
   C2_error_handling.2.2 [9] 1 _ rfl rfl⟩

theorem frame_seq_layout (b1 : Nat) (sb tail : List Nat) (s : Int)
    (hsl : sb.length = 4) (hun : unpack_i32 sb = some s) :
    frame_seq (17 :: b1 :: 17 :: 0 :: (sb ++ tail)) = some s ∧
    frame_flags (17 :: b1 :: 17 :: 0 :: (sb ++ tail)) = b1 &&& 15 := by
  constructor
  · rw [frame_seq]
    simp only [List.getD_cons_zero]
    have h4 : ((17 : Nat) &&& 15) * 4 = 4 := by decide
    rw [h4]
    have hd : (17 :: b1 :: 17 :: 0 :: (sb ++ tail) : List Nat).drop 4 = sb ++ tail := rfl
    rw [hd, List.take_left' hsl]
    exact hun
  · rfl

theorem _build_audio_frame_inv (c : List Nat) (s : Int) (last : Bool) (f : List Nat)
    (h : _build_audio_frame c s last = some f) :
    frame_seq f = some (if last then -s else s) ∧
    frame_flags f = (if last then MSG_NEG_WITH_SEQUENCE else MSG_POS_SEQUENCE) := by
  cases last
  · rcases hsb : pack_i32 s with _ | sb
    · simp [_build_audio_frame, hsb] at h
    rcases hlb : pack_u32 (gzip_compress c).length with _ | lb
    · simp [_build_audio_frame, hsb, hlb] at h
    simp only [_build_audio_frame, Bool.false_eq_true, if_false, hsb, hlb,
      Option.some.injEq] at h
    obtain ⟨hsl, hun⟩ := pack_i32_eq_some s sb hsb
    have hh : _build_header CLIENT_AUDIO_ONLY MSG_POS_SEQUENCE MSG_JSON MSG_GZIP
        = [17, 33, 17, 0] := rfl
    rw [hh] at h
    have hfr : ([17, 33, 17, 0] ++ sb ++ lb ++ gzip_compress c : List Nat)
        = 17 :: 33 :: 17 :: 0 :: (sb ++ (lb ++ gzip_compress c)) := by
      simp [List.append_assoc]
    rw [hfr] at h
    subst h
    obtain ⟨h1, h2⟩ := frame_seq_layout 33 sb (lb ++ gzip_compress c) s hsl hun
    exact ⟨by simpa using h1, by simpa using h2⟩
  · rcases hsb : pack_i32 (-s) with _ | sb
    · simp [_build_audio_frame, hsb] at h
    rcases hlb : pack_u32 (gzip_compress c).length with _ | lb
    · simp [_build_audio_frame, hsb, hlb] at h
    simp only [_build_audio_frame, if_true, hsb, hlb, Option.some.injEq] at h
    obtain ⟨hsl, hun⟩ := pack_i32_eq_some (-s) sb hsb
    have hh : _build_header CLIENT_AUDIO_ONLY MSG_NEG_WITH_SEQUENCE MSG_JSON MSG_GZIP
        = [17, 35, 17, 0] := rfl
    rw [hh] at h
    have hfr : ([17, 35, 17, 0] ++ sb ++ lb ++ gzip_compress c : List Nat)
        = 17 :: 35 :: 17 :: 0 :: (sb ++ (lb ++ gzip_compress c)) := by
      simp [List.append_assoc]
    rw [hfr] at h
    subst h
    obtain ⟨h1, h2⟩ := frame_seq_layout 35 sb (lb ++ gzip_compress c) (-s) hsl hun
    exact ⟨by simpa using h1, by simpa using h2⟩

theorem _build_request_inv (p : Json) (s : Int) (f : List Nat)
    (h : _build_request p s = some f) : frame_seq f = some s := by
  rcases hsb : pack_i32 s with _ | sb
  · simp [_build_request, hsb] at h
  rcases hlb : pack_u32 (gzip_compress (json_dumps p)).length with _ | lb
  · simp [_build_request, hsb, hlb] at h
  simp only [_build_request, hsb, hlb, Option.some.injEq] at h
  obtain ⟨hsl, hun⟩ := pack_i32_eq_some s sb hsb
  have hh : _build_header CLIENT_FULL_REQUEST MSG_POS_SEQUENCE MSG_JSON MSG_GZIP
      = [17, 17, 17, 0] := rfl
  rw [hh] at h
  have hfr : ([17, 17, 17, 0] ++ sb ++ lb ++ gzip_compress (json_dumps p) : List Nat)
      = 17 :: 17 :: 17 :: 0 :: (sb ++ (lb ++ gzip_compress (json_dumps p))) := by
    simp [List.append_assoc]
  rw [hfr] at h
  subst h
  exact (frame_seq_layout 17 sb (lb ++ gzip_compress (json_dumps p)) s hsl hun).1

theorem _build_audio_frame_total (c : List Nat) (s : Int) (last : Bool)
    (hlen : c.length + 3 < 4294967296)
    (hlo : -2147483648 < s) (hhi : s < 2147483648) :
    ∃ f, _build_audio_frame c s last = some f := by
  have hcl : (gzip_compress c).length < 4294967296 := by
    simp only [gzip_compress, List.length_cons]
    omega
  obtain ⟨lb, hlb, _, _⟩ := pack_u32_spec _ hcl
  cases last
  · obtain ⟨sb, hsb, _, _⟩ := pack_i32_spec s (by omega) hhi
    exact ⟨_build_header CLIENT_AUDIO_ONLY MSG_POS_SEQUENCE MSG_JSON MSG_GZIP
        ++ sb ++ lb ++ gzip_compress c,
      by simp [_build_audio_frame, hsb, hlb, List.append_assoc]⟩
  · obtain ⟨sb, hsb, _, _⟩ := pack_i32_spec (-s) (by omega) (by omega)
    exact ⟨_build_header CLIENT_AUDIO_ONLY MSG_NEG_WITH_SEQUENCE MSG_JSON MSG_GZIP
        ++ sb ++ lb ++ gzip_compress c,
      by simp [_build_audio_frame, hsb, hlb, List.append_assoc]⟩

/-- C3.  `_build_audio_frame(pcm, seq, is_last := true)` produces a frame
whose wire sequence field decodes to `-seq` and whose terminal flag
(header flag bit 1, the bit `_parse_response` reads at line 96) is set;
`is_last := false` produces wire sequence `+seq` and a clear terminal
flag.  The range hypotheses are the i32 domain of the wire sequence
field (`struct.pack(">i", …)`). -/
theorem C3_terminal_marker (audio : List Nat) (seq : Int)
    (hlen : audio.length + 3 < 4294967296)
    (hlo : -2147483648 < seq) (hhi : seq < 2147483648) :
    (∃ f, _build_audio_frame audio seq true = some f ∧
       frame_seq f = some (-seq) ∧ frame_flags f &&& 2 ≠ 0) ∧
    (∃ f, _build_audio_frame audio seq false = some f ∧
       frame_seq f = some seq ∧ frame_flags f &&& 2 = 0) := by
  constructor
  · obtain ⟨f, hf⟩ := _build_audio_frame_total audio seq true hlen hlo hhi
    obtain ⟨h1, h2⟩ := _build_audio_frame_inv audio seq true f hf
    refine ⟨f, hf, by simpa using h1, ?_⟩
    rw [h2]
    decide
  · obtain ⟨f, hf⟩ := _build_audio_frame_total audio seq false hlen hlo hhi
    obtain ⟨h1, h2⟩ := _build_audio_frame_inv audio seq false f hf
    refine ⟨f, hf, by simpa using h1, ?_⟩
    rw [h2]
    decide

theorem C3_terminal_marker_witness :
    (∃ f, _build_audio_frame [7] 5 true = some f ∧
       frame_seq f = some (-5) ∧ frame_flags f &&& 2 ≠ 0) ∧
    (∃ f, _build_audio_frame [7] 5 false = some f ∧
       frame_seq f = some 5 ∧ frame_flags f &&& 2 = 0) :=
  C3_terminal_marker [7] 5 (by decide) (by decide) (by decide)

theorem audio_frames_from_spec :
    ∀ (chunks : List (List Nat)) (seq : Int) (fs : List (List Nat)),
    audio_frames_from seq chunks = some fs →
    fs.length = chunks.length ∧
    ∀ k, k < fs.length → frame_seq (fs.getD k []) = some (seq + k) := by
  intro chunks
  induction chunks with
  | nil =>
    intro seq fs h
    simp only [audio_frames_from, Option.some.injEq] at h
    subst h
    simp
  | cons c tl ih =>
    intro seq fs h
    rcases hf : _build_audio_frame c seq false with _ | f
    · simp [audio_frames_from, hf] at h
    rcases hrest : audio_frames_from (seq + 1) tl with _ | fs2
    · simp [audio_frames_from, hf, hrest] at h
    simp only [audio_frames_from, hf, hrest, Option.some.injEq] at h
    subst h
    obtain ⟨hl, hk⟩ := ih (seq + 1) fs2 hrest
    constructor
    · simp [hl]
    · intro k hk2
      cases k with
      | zero =>
        simpa using (_build_audio_frame_inv c seq false f hf).1
      | succ k2 =>
        simp only [List.length_cons] at hk2
        have hs := hk k2 (by omega)
        simp only [List.getD_cons_succ]
        rw [hs]
        congr 1
        push_cast
        ring

/-- C7.  Over the trace of one session's transmitted frames — the
FullRequest handshake followed by the sender loop's AudioOnly frames —
the wire sequence numbers are `1, 2, …, n+1` in order (strictly
increasing), with the single exception of the terminal marker, which
carries the negation `-(n+2)` of the sequence counter. -/
theorem C7_session_seq_ordering (init : Json) (chunks : List (List Nat))
    (fs : List (List Nat)) (h : session_frames init chunks = some fs) :
    fs.length = chunks.length + 2 ∧
    (∀ k, k + 1 < fs.length → frame_seq (fs.getD k []) = some ((k : Int) + 1)) ∧
    (∀ i j a b, i < j → j + 1 < fs.length →
      frame_seq (fs.getD i []) = some a → frame_seq (fs.getD j []) = some b → a < b) ∧
    frame_seq (fs.getD (fs.length - 1) []) = some (-((chunks.length : Int) + 2)) := by
  rcases hh : _build_request init 1 with _ | f0
  · simp [session_frames, hh] at h
  rcases ha : audio_frames_from 2 chunks with _ | afs
  · simp [session_frames, hh, ha] at h
  rcases ht : _build_audio_frame [] (2 + chunks.length) true with _ | ft
  · simp [session_frames, hh, ha, ht] at h
  simp only [session_frames, hh, ha, ht, Option.some.injEq] at h
  subst h
  obtain ⟨hal, hak⟩ := audio_frames_from_spec chunks 2 afs ha
  have hlen : (f0 :: afs ++ [ft]).length = chunks.length + 2 := by
    simp [hal]
  have hmid : ∀ k, k + 1 < (f0 :: afs ++ [ft]).length →
      frame_seq ((f0 :: afs ++ [ft]).getD k []) = some ((k : Int) + 1) := by
    intro k hk
    rw [hlen] at hk
    cases k with
    | zero =>
      simpa using _build_request_inv init 1 f0 hh
    | succ k2 =>
      have hk2 : k2 < afs.length := by omega
      have hg : ((f0 :: afs ++ [ft]) : List (List Nat)).getD (k2 + 1) [] = afs.getD k2 [] := by
        simp only [List.cons_append, List.getD_cons_succ]
        exact List.getD_append afs [ft] [] k2 hk2
      rw [hg, hak k2 hk2]
      congr 1
      push_cast
      ring
  refine ⟨hlen, hmid, ?_, ?_⟩
  · intro i j a b hij hj hia hjb
    have h1 := hmid i (by omega)
    have h2 := hmid j hj
    rw [h1] at hia
    rw [h2] at hjb
    cases hia
    cases hjb
    omega
  · have hg : ((f0 :: afs ++ [ft]) : List (List Nat)).getD ((f0 :: afs ++ [ft]).length - 1) []
        = ft := by
      rw [hlen]
      rw [show chunks.length + 2 - 1 = afs.length + 1 by omega]
      simp only [List.cons_append, List.getD_cons_succ]
      rw [List.getD_append_right afs [ft] [] afs.length le_rfl]
      simp
    rw [hg]
    have := (_build_audio_frame_inv [] (2 + chunks.length) true ft ht).1
    simpa [add_comm] using this

theorem C7_session_seq_ordering_witness :
    ((session_frames (Json.obj []) [[1], [2]]).getD []).length = 2 + 2 ∧
    frame_seq (((session_frames (Json.obj []) [[1], [2]]).getD []).getD 2 []) = some 3 ∧
    frame_seq (((session_frames (Json.obj []) [[1], [2]]).getD []).getD 3 []) = some (-4) := by
  obtain ⟨h1, h2, _, h4⟩ :=
    C7_session_seq_ordering (Json.obj []) [[1], [2]] ((session_frames (Json.obj []) [[1], [2]]).getD []) rfl
  refine ⟨by simpa using h1, ?_, ?_⟩
  · simpa using h2 2 (by rw [h1]; decide)
  · have : ((session_frames (Json.obj []) [[1], [2]]).getD []).length - 1 = 3 := by
      rw [h1]
      decide
    rw [← this]
    simpa using h4

theorem ASRBuffer_mk_buf (a : List Nat) (b c : Bool) :
    (ASRBuffer.mk a b c).audio_buffer = a := rfl

theorem ASRBuffer_mk_notified (a : List Nat) (b c : Bool) :
    (ASRBuffer.mk a b c).overflow_notified = b := rfl

theorem feed_audio_inv (s s2 : ASRBuffer) (p : List Nat) (w : Bool)
    (h : feed_audio s p = (s2, w)) :
    s2.audio_buffer.length ≤ max s.audio_buffer.length MAX_BUFFER_SIZE ∧
    (cond w 1 0 + cond s.overflow_notified 1 0 ≤ cond s2.overflow_notified 1 0) ∧
    (s.stopped = false → List.IsSuffix s2.audio_buffer (s.audio_buffer ++ p)) := by
  unfold feed_audio at h
  split at h
  · next h1 =>
    injection h with h2 h3
    subst h2
    subst h3
    refine ⟨le_max_left _ _, ?_, ?_⟩
    · cases s.overflow_notified <;> simp
    · intro hs
      rw [hs] at h1
      simp only [Bool.false_or] at h1
      have hp : p = [] := by simpa [List.isEmpty_iff] using h1
      subst hp
      simp
  · split at h
    · next h2 =>
      split at h
      · next h3 =>
        injection h with hs2 hw
        subst hs2
        subst hw
        rw [ASRBuffer_mk_buf, ASRBuffer_mk_notified]
        refine ⟨?_, ?_, fun _ => List.drop_suffix _ _⟩
        · rw [List.length_drop, List.length_append]
          simp only [List.length_append] at h2
          omega
        · rw [h3]
          simp
      · next h3 =>
        have h3f : s.overflow_notified = false := by simpa using h3
        injection h with hs2 hw
        subst hs2
        subst hw
        rw [ASRBuffer_mk_buf, ASRBuffer_mk_notified]
        refine ⟨?_, ?_, fun _ => List.drop_suffix _ _⟩
        · rw [List.length_drop, List.length_append]
          simp only [List.length_append] at h2
          omega
        · rw [h3f]
          simp
    · next h2 =>
      injection h with hs2 hw
      subst hs2
      subst hw
      rw [ASRBuffer_mk_buf, ASRBuffer_mk_notified]
      refine ⟨?_, ?_, fun _ => List.suffix_refl _⟩
      · rw [List.length_append]
        simp only [List.length_append, not_lt] at h2
        omega
      · cases s.overflow_notified <;> simp

theorem feed_run_inv (pcms : List (List Nat)) : ∀ s : ASRBuffer,
    s.audio_buffer.length ≤ MAX_BUFFER_SIZE →
    (∀ st ∈ (feed_run s pcms).1, st.audio_buffer.length ≤ MAX_BUFFER_SIZE) ∧
    (feed_run s pcms).2 + cond s.overflow_notified 1 0 ≤ 1 := by
  induction pcms with
  | nil =>
    intro s hlen
    simp only [feed_run, List.not_mem_nil, false_implies, implies_true, true_and]
    cases s.overflow_notified <;> simp
  | cons p rest ih =>
    intro s hlen
    rcases hfa : feed_audio s p with ⟨s1, w⟩
    obtain ⟨hb, hn, _⟩ := feed_audio_inv s s1 p w hfa
    have hb2 : s1.audio_buffer.length ≤ MAX_BUFFER_SIZE :=
      le_trans hb (max_le hlen le_rfl)
    obtain ⟨ih1, ih2⟩ := ih s1 hb2
    constructor
    · intro st hst
      simp only [feed_run, hfa, List.mem_cons] at hst
      rcases hst with rfl | hst
      · exact hb2
      · exact ih1 st hst
    · simp only [feed_run, hfa]
      omega

/-- C4.  Within one session (starting from the post-`start` state), the
audio buffer length never exceeds `MAX_BUFFER_SIZE` after any sequence of
`feed_audio` calls; the overflow warning fires at most once per session;
and each live write keeps only a suffix of (old buffer ++ new bytes),
i.e. the oldest bytes are discarded first. -/
theorem C4_buffer_bound (pcms : List (List Nat)) :
    (∀ st ∈ (feed_run asr_start_state pcms).1, st.audio_buffer.length ≤ MAX_BUFFER_SIZE) ∧
    (feed_run asr_start_state pcms).2 ≤ 1 ∧
    (∀ (s s2 : ASRBuffer) (p : List Nat) (w : Bool), feed_audio s p = (s2, w) →
      s.stopped = false → List.IsSuffix s2.audio_buffer (s.audio_buffer ++ p)) := by
  obtain ⟨h1, h2⟩ := feed_run_inv pcms asr_start_state (by simp [asr_start_state])
  refine ⟨h1, ?_, fun s s2 p w hf hs => (feed_audio_inv s s2 p w hf).2.2 hs⟩
  simpa [asr_start_state] using h2

theorem C4_buffer_bound_witness :
    ((feed_run asr_start_state [[1, 2, 3]]).1.getD 0 asr_start_state).audio_buffer.length
      ≤ MAX_BUFFER_SIZE ∧
    (feed_run asr_start_state [[1, 2, 3]]).2 ≤ 1 ∧
    List.IsSuffix (feed_audio asr_start_state [1, 2, 3]).1.audio_buffer
      (asr_start_state.audio_buffer ++ [1, 2, 3]) := by
  obtain ⟨h1, h2, h3⟩ := C4_buffer_bound [[1, 2, 3]]
  exact ⟨h1 _ (List.mem_cons_self _ _), h2,
    h3 asr_start_state (feed_audio asr_start_state [1, 2, 3]).1 [1, 2, 3]
      (feed_audio asr_start_state [1, 2, 3]).2 rfl rfl⟩

theorem event_wait_le (d : Option Int) (now timeout : Int) (h : 0 ≤ timeout) :
    (event_wait d now timeout).1 ≤ timeout := by
  rcases d with _ | t
  · simp [event_wait]
  · simp only [event_wait]
    split
    · simpa using h
    · split
      · simp only
        omega
      · simp

theorem stage2_close_wait_le (env : StopEnv) :
    stage2_close_wait env ≤ FORCE_CLOSE_WAIT_SECONDS := by
  unfold stage2_close_wait
  split
  · split
    · exact le_refl _
    · exact min_le_right _ _
  · decide

/-- C6 counterexample.  The claim bounds `stop()` by
`STOP_WAIT_TIMEOUT + FORCE_CLOSE_WAIT` (= 14 s).  The source's second
stage blocks twice for up to `FORCE_CLOSE_WAIT_SECONDS` each — once in
`future.result(timeout=2)` and once more in the final
`_done_event.wait(timeout=2)` — so a fully stalled network holds
`stop()` for 12 + 2 + 2 = 16 s, exceeding the claimed sum. -/
theorem C6_stop_timeout_counterexample :
    stop_elapsed ⟨true, none, true, true, none⟩ = 16 ∧
    ¬(stop_elapsed ⟨true, none, true, true, none⟩
        ≤ STOP_WAIT_TIMEOUT_SECONDS + FORCE_CLOSE_WAIT_SECONDS) := by
  constructor
  · rfl
  · decide

/-- C6 (amended).  `stop()` never blocks longer than
`STOP_WAIT_TIMEOUT_SECONDS + 2 * FORCE_CLOSE_WAIT_SECONDS` (16 s), in
every environment — in particular it never hangs indefinitely when the
network stalls after `stop()` is requested. -/
theorem C6_stop_two_stage_timeout (env : StopEnv) :
    stop_elapsed env ≤ STOP_WAIT_TIMEOUT_SECONDS + 2 * FORCE_CLOSE_WAIT_SECONDS := by
  have e1 : STOP_WAIT_TIMEOUT_SECONDS = 12 := rfl
  have e2 : FORCE_CLOSE_WAIT_SECONDS = 2 := rfl
  have h1 := event_wait_le env.done_at 0 STOP_WAIT_TIMEOUT_SECONDS (by decide)
  have h2 := event_wait_le env.done_at
    ((event_wait env.done_at 0 STOP_WAIT_TIMEOUT_SECONDS).1 + stage2_close_wait env)
    FORCE_CLOSE_WAIT_SECONDS (by decide)
  have h3 := stage2_close_wait_le env
  unfold stop_elapsed
  split
  · decide
  · split
    · rw [e1, e2] at *
      omega
    · rw [e1, e2] at *
      omega

theorem _audio_callback_stopped (vad : List Int → Bool) (s : RecState) (f : FrameIn)
    (h : s.auto_stopped = true) : _audio_callback vad s f = (s, none) := by
  unfold _audio_callback
  rw [h]
  simp

theorem _audio_callback_fired (vad : List Int → Bool) (s s2 : RecState) (f : FrameIn)
    (r : StopReason) (h : _audio_callback vad s f = (s2, some r)) :
    s2.auto_stopped = true ∧ s.has_auto_stop_cb = true ∧
    (r = .timeout ↔ s.max_duration ≤ f.time - s.start_time) ∧
    (r = .silence ↔
      (¬ s.max_duration ≤ f.time - s.start_time ∧
        s.silence_timeout ≤ f.time - post_voice vad s f)) := by
  unfold _audio_callback at h
  split at h
  · injection h with h1 h2
    exact absurd h2 (by simp)
  · next hg =>
    have hga : s.recording = true ∧ s.auto_stopped = false := by
      constructor
      · by_contra hc
        simp only [Bool.not_eq_true] at hc
        simp [hc] at hg
      · by_contra hc
        simp only [Bool.not_eq_false] at hc
        simp [hc] at hg
    split at h
    · next hcond =>
      unfold _trigger_auto_stop at h
      split at h
      · next htr =>
        exfalso
        simp only [hga.1, hga.2, Bool.not_true, Bool.or_false] at htr
        exact absurd htr (by simp)
      · injection h with h1 h2
        subst h1
        rcases hcb : s.has_auto_stop_cb
        · rw [hcb] at h2
          simp at h2
        · rw [hcb] at h2
          simp only [if_true, reduceIte, Option.some.injEq] at h2
          subst h2
          refine ⟨rfl, rfl, by simp [hcond], ?_⟩
          simp [hcond]
    · next hcond =>
      split at h
      · next hcond2 =>
        unfold _trigger_auto_stop at h
        split at h
        · next htr =>
          exfalso
          simp only [hga.1, hga.2, Bool.not_true, Bool.or_false] at htr
          exact absurd htr (by simp)
        · injection h with h1 h2
          subst h1
          rcases hcb : s.has_auto_stop_cb
          · rw [hcb] at h2
            simp at h2
          · rw [hcb] at h2
            simp only [if_true, reduceIte, Option.some.injEq] at h2
            subst h2
            refine ⟨rfl, rfl, by simp [hcond], ?_⟩
            simp [hcond, hcond2]
      · injection h with h1 h2
        exact absurd h2 (by simp)

theorem _audio_callback_fires (vad : List Int → Bool) (s : RecState) (f : FrameIn)
    (hrec : s.recording = true) (hns : s.auto_stopped = false)
    (hcb : s.has_auto_stop_cb = true)
    (hthr : s.max_duration ≤ f.time - s.start_time ∨
      s.silence_timeout ≤ f.time - post_voice vad s f) :
    ∃ s2 r, _audio_callback vad s f = (s2, some r) := by
  unfold _audio_callback
  have hguard : (!s.recording || s.auto_stopped) = false := by
    rw [hrec, hns]
    rfl
  rw [hguard]
  have htrig : ∀ st2 : RecState, st2.auto_stopped = s.auto_stopped →
      st2.recording = s.recording → st2.has_auto_stop_cb = s.has_auto_stop_cb →
      ∀ reason, ∃ s2 r, _trigger_auto_stop st2 reason = (s2, some r) := by
    intro st2 ha hb hc reason
    unfold _trigger_auto_stop
    have hg2 : (st2.auto_stopped || !st2.recording) = false := by
      rw [ha, hb, hns, hrec]
      rfl
    rw [hg2, if_neg (by simp), hc, hcb, if_pos rfl]
    exact ⟨_, reason, rfl⟩
  by_cases h1 : s.max_duration ≤ f.time - s.start_time
  · rw [if_pos h1]
    exact htrig
      { s with
          audio_chunks := s.audio_chunks ++ [f.samples],
          vad_buffer := post_buffer vad s f,
          last_voice_time := post_voice vad s f } rfl rfl rfl StopReason.timeout
  · rw [if_neg h1]
    rcases hthr with h | h2
    · exact absurd h h1
    · rw [if_pos h2]
      exact htrig
        { s with
            audio_chunks := s.audio_chunks ++ [f.samples],
            vad_buffer := post_buffer vad s f,
            last_voice_time := post_voice vad s f } rfl rfl rfl StopReason.silence

theorem run_callbacks_stopped (vad : List Int → Bool) (frames : List FrameIn) :
    ∀ s : RecState, s.auto_stopped = true →
    fired_count (run_callbacks vad s frames).2 = 0 := by
  induction frames with
  | nil =>
    intro s h
    simp [run_callbacks, fired_count]
  | cons f rest ih =>
    intro s h
    simp only [run_callbacks, _audio_callback_stopped vad s f h, fired_count,
      List.filterMap_cons]
    exact ih s h

theorem run_callbacks_count (vad : List Int → Bool) (frames : List FrameIn) :
    ∀ s : RecState, fired_count (run_callbacks vad s frames).2 ≤ 1 := by
  induction frames with
  | nil =>
    intro s
    simp [run_callbacks, fired_count]
  | cons f rest ih =>
    intro s
    rcases hcb : _audio_callback vad s f with ⟨s1, e⟩
    rcases e with _ | r
    · simp only [run_callbacks, hcb, fired_count, List.filterMap_cons]
      exact ih s1
    · have h1 := (_audio_callback_fired vad s s1 f r hcb).1
      have h0 := run_callbacks_stopped vad rest s1 h1
      simp only [run_callbacks, hcb, fired_count] at h0 ⊢
      show (r :: List.filterMap id (run_callbacks vad s1 rest).2).length ≤ 1
      rw [List.length_cons]
      omega

/-- C5.  Per capture session: (1) over any sequence of frame-arrival
callbacks the `on_auto_stop` event fires at most once; (2) once
auto-stopped, every further frame-arrival callback is a no-op; (3) a
fired event implies the state is auto-stopped and its reason is
determined by the first threshold crossed — `timeout` exactly when
`now − started_at ≥ max_duration` (checked first), `silence` exactly
when that fails and `now − last_voice_at ≥ silence_timeout` (with
`last_voice_at` as updated by this frame's VAD pass); (4) when live,
with a callback installed and either threshold crossed, the handler
does fire. -/
theorem C5_auto_stop_once (vad : List Int → Bool) :
    (∀ (s : RecState) (frames : List FrameIn),
      fired_count (run_callbacks vad s frames).2 ≤ 1) ∧
    (∀ (s : RecState) (f : FrameIn), s.auto_stopped = true →
      _audio_callback vad s f = (s, none)) ∧
    (∀ (s s2 : RecState) (f : FrameIn) (r : StopReason),
      _audio_callback vad s f = (s2, some r) →
      s2.auto_stopped = true ∧ s.has_auto_stop_cb = true ∧
      (r = .timeout ↔ s.max_duration ≤ f.time - s.start_time) ∧
      (r = .silence ↔
        (¬ s.max_duration ≤ f.time - s.start_time ∧
          s.silence_timeout ≤ f.time - post_voice vad s f))) ∧
    (∀ (s : RecState) (f : FrameIn), s.recording = true → s.auto_stopped = false →
      s.has_auto_stop_cb = true →
      (s.max_duration ≤ f.time - s.start_time ∨
        s.silence_timeout ≤ f.time - post_voice vad s f) →
      ∃ s2 r, _audio_callback vad s f = (s2, some r)) :=
  ⟨fun s frames => run_callbacks_count vad frames s,
   fun s f h => _audio_callback_stopped vad s f h,
   fun s s2 f r h => _audio_callback_fired vad s s2 f r h,
   fun s f h1 h2 h3 h4 => _audio_callback_fires vad s f h1 h2 h3 h4⟩

theorem C5_auto_stop_once_witness :
    fired_count (run_callbacks (fun _ => false) rec_started_state [⟨0, []⟩]).2 ≤ 1 ∧
    _audio_callback (fun _ => false) { rec_started_state with auto_stopped := true } ⟨0, []⟩
      = ({ rec_started_state with auto_stopped := true }, none) ∧
    ((_audio_callback (fun _ => false) rec_started_state ⟨0, []⟩).1.auto_stopped = true ∧
      rec_started_state.has_auto_stop_cb = true ∧
      (StopReason.timeout = StopReason.timeout ↔
        rec_started_state.max_duration ≤ (0 : Int) - rec_started_state.start_time)) ∧
    (∃ s2 r, _audio_callback (fun _ => false) rec_started_state ⟨0, []⟩ = (s2, some r)) := by
  obtain ⟨a, b, c, d⟩ := C5_auto_stop_once (fun _ => false)
  have hc := c rec_started_state
    (_audio_callback (fun _ => false) rec_started_state ⟨0, []⟩).1 ⟨0, []⟩
    StopReason.timeout rfl
  exact ⟨a rec_started_state [⟨0, []⟩],
    b { rec_started_state with auto_stopped := true } ⟨0, []⟩ rfl,
    ⟨hc.1, hc.2.1, hc.2.2.1⟩,
    d rec_started_state ⟨0, []⟩ rfl rfl rfl (Or.inl (by decide))⟩

/-- C8.  When `start` fails because the input stream cannot be opened
(lines 92-119), the error is re-raised and every piece of partial state
is rolled back: not recording, empty accumulation and VAD buffers,
callbacks cleared, auto-stop state cleared, timing fields zeroed, and no
open stream. -/
theorem C8_start_failure_rollback (s : RecState) (now md st : Int) (cb1 cb2 : Bool)
    (h : s.recording = false) :
    (startRec s now md st cb1 cb2 true).2 = true ∧
    (startRec s now md st cb1 cb2 true).1.recording = false ∧
    (startRec s now md st cb1 cb2 true).1.audio_chunks = [] ∧
    (startRec s now md st cb1 cb2 true).1.vad_buffer = [] ∧
    (startRec s now md st cb1 cb2 true).1.has_auto_stop_cb = false ∧
    (startRec s now md st cb1 cb2 true).1.has_chunk_cb = false ∧
    (startRec s now md st cb1 cb2 true).1.auto_stop_reason = none ∧
    (startRec s now md st cb1 cb2 true).1.auto_stopped = false ∧
    (startRec s now md st cb1 cb2 true).1.start_time = 0 ∧
    (startRec s now md st cb1 cb2 true).1.last_voice_time = 0 ∧
    (startRec s now md st cb1 cb2 true).1.stream_open = false := by
  simp [startRec, h]

theorem C8_start_failure_rollback_witness :
    (startRec rec_init_state 5 60 3 true true true).2 = true ∧
    (startRec rec_init_state 5 60 3 true true true).1.recording = false ∧
    (startRec rec_init_state 5 60 3 true true true).1.audio_chunks = [] ∧
    (startRec rec_init_state 5 60 3 true true true).1.vad_buffer = [] ∧
    (startRec rec_init_state 5 60 3 true true true).1.has_auto_stop_cb = false ∧
    (startRec rec_init_state 5 60 3 true true true).1.has_chunk_cb = false ∧
    (startRec rec_init_state 5 60 3 true true true).1.auto_stop_reason = none ∧
    (startRec rec_init_state 5 60 3 true true true).1.auto_stopped = false ∧
    (startRec rec_init_state 5 60 3 true true true).1.start_time = 0 ∧
    (startRec rec_init_state 5 60 3 true true true).1.last_voice_time = 0 ∧
    (startRec rec_init_state 5 60 3 true true true).1.stream_open = false :=
  C8_start_failure_rollback rec_init_state 5 60 3 true true rfl

/-- C10.  `stop` returns the accumulated audio at most once: a stop while
recording returns the concatenation of the recorded chunks and clears the
accumulation buffer; a stop while not recording returns the empty array;
and a second consecutive stop always returns the empty array. -/
theorem C10_stop_returns_once (s : RecState) :
    (s.recording = true →
      (stopRec s).2 = s.audio_chunks.flatten ∧ (stopRec s).1.audio_chunks = []) ∧
    (s.recording = false → (stopRec s).2 = []) ∧
    (stopRec (stopRec s).1).2 = [] := by
  refine ⟨?_, ?_, ?_⟩
  · intro h
    constructor
    · by_cases he : s.audio_chunks.isEmpty
      · have hc : s.audio_chunks = [] := by simpa [List.isEmpty_iff] using he
        simp [stopRec, h, he, hc]
      · simp [stopRec, h, he]
    · simp [stopRec, h]
  · intro h
    simp [stopRec, h]
  · rcases h : s.recording
    · simp [stopRec, h]
    · simp [stopRec, h]

theorem C10_stop_returns_once_witness :
    (stopRec { rec_started_state with audio_chunks := [[1, 2], [3]] }).2
        = [[1, 2], [3]].flatten ∧
    (stopRec { rec_started_state with audio_chunks := [[1, 2], [3]] }).1.audio_chunks = [] ∧
    (stopRec rec_init_state).2 = [] ∧
    (stopRec (stopRec { rec_started_state with audio_chunks := [[1, 2], [3]] }).1).2 = [] := by
  obtain ⟨h1, _, h3⟩ :=
    C10_stop_returns_once { rec_started_state with audio_chunks := [[1, 2], [3]] }
  obtain ⟨ha, hb⟩ := h1 rfl
  exact ⟨ha, hb, (C10_stop_returns_once rec_init_state).2.1 rfl, h3⟩
